import Mathlib

/-!
Shallow embedding of the configuration-derivation core of the
`package-generator` repository (file `src/lib/helpers.js`), together with
theorems settling the specification claims about it.

JavaScript strings are modelled as Lean `String` (all data in scope is
ASCII, so UTF-16 code-unit order and code-point order coincide); JavaScript
`undefined` is modelled as `Option.none`; functions that may `throw` are
modelled in `Except String`; JavaScript objects used as string-keyed maps
are modelled as association lists in insertion order (all key sets arising
here are duplicate-free, so insertion never overwrites).
-/

namespace PackageGenerator

/-- The answer record (`props`) threaded through `src/lib/helpers.js`.
Only the fields read by the embedded functions are included. -/
structure Props where
  name : String
  description : String
  author : String
  «private» : Bool
  license : String
  features : List String
  language : String
  bundler : String
  eslintConfig : String
  stylelintConfig : String
  activationCommands : Bool
  activationHooks : List String
  rootScopeUsed : String
  grammarUsed : String
  workspaceOpenerURIs : List String
  atomDependencies : List String
  additionalDependencies : List String
  babelPresets : List String
  repositoryName : String
deriving DecidableEq, Repr

/-- JavaScript `String.prototype.endsWith`, on code points. -/
def jsEndsWith (s suffix : String) : Bool :=
  suffix.data.isSuffixOf s.data

/-- Code-point comparison of character lists: the order JavaScript's
default sort comparator induces via `<` on strings (identical to UTF-16
code-unit order on the ASCII data in scope). -/
def charListLe : List Char → List Char → Bool
  | [], _ => true
  | _ :: _, [] => false
  | a :: as, b :: bs =>
    if a.toNat < b.toNat then true
    else if b.toNat < a.toNat then false
    else charListLe as bs

/-- `jsLeq s t` holds when `s` sorts no later than `t` under JavaScript's
default string comparator. -/
def jsLeq (s t : String) : Bool := charListLe s.data t.data

/-- JavaScript `String.prototype.toLowerCase`, on the ASCII data in scope. -/
def jsToLower (s : String) : String := String.mk (s.data.map Char.toLower)

/-- The `root-scope-used` arm of `getActivationHooks` (helpers.js:201-204). -/
def normalizeRootScope (s : String) : String :=
  if jsEndsWith s ":root-scope-used" then s else s ++ ":root-scope-used"

/-- The `grammar-used` arm of `getActivationHooks` (helpers.js:206-209).
The source tests the suffix `:root-scope-used` here, not `:grammar-used`. -/
def normalizeGrammar (s : String) : String :=
  if jsEndsWith s ":root-scope-used" then s else s ++ ":grammar-used"

/-- `getActivationHooks` (helpers.js:195-212).  A hook string matching no
`case` falls through the `switch` and maps to `undefined` (`none`). -/
def getActivationHooks (props : Props) : List (Option String) :=
  props.activationHooks.map fun hook =>
    if hook = "core:loaded-shell-environment" then some hook
    else if hook = "root-scope-used" then some (normalizeRootScope props.rootScopeUsed)
    else if hook = "grammar-used" then some (normalizeGrammar props.grammarUsed)
    else none

/-- `getLanguageExtension` (helpers.js:179-193). -/
def getLanguageExtension (selectedLanguage : String) : Except String String :=
  if jsToLower selectedLanguage = "typescript" then Except.ok "ts"
  else if jsToLower selectedLanguage = "javascript" then Except.ok "js"
  else if jsToLower selectedLanguage = "coffeescript" then Except.ok "coffee"
  else Except.error "Unsupported language selected"

/-- The message of the error thrown by `getWatchScript`/`getBuildScript`. -/
def bundlerError (bundler : String) : String :=
  "Unsupported bundler \x27" ++ bundler ++ "\x27"

/-- `getWatchScript` (helpers.js:214-230). -/
def getWatchScript (props : Props) : Except String String :=
  if "code" ∉ props.features then Except.ok "echo \"Nothing to watch\""
  else if props.bundler = "webpack" then Except.ok "webpack --watch --mode none"
  else if props.bundler = "rollup" then Except.ok "rollup --watch --config"
  else Except.error (bundlerError props.bundler)

/-- `getBuildScript` (helpers.js:232-248). -/
def getBuildScript (props : Props) : Except String String :=
  if "code" ∉ props.features then Except.ok "echo \"Nothing to build\""
  else if props.bundler = "webpack" then Except.ok "webpack --mode production"
  else if props.bundler = "rollup" then Except.ok "rollup --config"
  else Except.error (bundlerError props.bundler)

/-- An element of the `dependencies`/`devDependencies` arrays built by
`getDependencies`: the source pushes plain strings, and (for
`additionalDependencies` and `babelPresets`) whole arrays of strings
without flattening them. -/
inductive DepEntry where
  | str : String → DepEntry
  | arr : List String → DepEntry
deriving DecidableEq, Repr

/-- The string JavaScript's default sort comparator sees for an array
element: a nested array is converted with `Array.prototype.toString`,
i.e. joined with commas. -/
def jsKey : DepEntry → String
  | .str s => s
  | .arr l => String.intercalate "," l

/-- Stable insertion of one element into a list sorted by `jsKey`. -/
def insertByKey (x : DepEntry) : List DepEntry → List DepEntry
  | [] => [x]
  | y :: ys => if jsLeq (jsKey x) (jsKey y) then x :: y :: ys else y :: insertByKey x ys

/-- JavaScript `Array.prototype.sort` with the default (string, code-unit)
comparator, as a stable insertion sort. -/
def jsSort (l : List DepEntry) : List DepEntry :=
  l.foldr insertByKey []

/-- `getDependencies` (helpers.js:72-177).  Returns
`[dependencies.sort(), devDependencies.sort()]`. -/
def getDependencies (props : Props) : List DepEntry × List DepEntry :=
  let dependencies : List DepEntry := []
  let devDependencies : List DepEntry :=
    [.str "husky", .str "lint-staged", .str "jsonlint", .str "npm-run-all",
     .str "prettierx", .str "source-map-explorer", .str "stylelint"]
  let devDependencies :=
    if props.bundler = "webpack" then
      let d := devDependencies ++
        [.str "sass-loader", .str "style-loader", .str "css-loader",
         .str "webpack-cli", .str "webpack"]
      if props.language = "coffeescript" then d ++ [.str "coffee-loader"] else d
    else if props.bundler = "rollup" then
      let d := devDependencies ++
        [.str "rollup", .str "@rollup/plugin-babel", .str "@rollup/plugin-commonjs",
         .str "@rollup/plugin-json", .str "@rollup/plugin-node-resolve",
         .str "rollup-plugin-scss", .str "rollup-plugin-terser"]
      let d := if props.language = "coffeescript" then d ++ [.str "rollup-plugin-coffee-script"] else d
      if props.language = "typescript" then d ++ [.str "@rollup/plugin-typescript"] else d
    else devDependencies
  let devDependencies :=
    if props.additionalDependencies.length ≠ 0 then
      devDependencies ++ [.arr props.additionalDependencies]
    else devDependencies
  let devDependencies :=
    if props.language = "coffeescript" then
      devDependencies ++ [.str "coffeelint@2", .str "coffeescript@2"]
    else if props.language = "javascript" then
      let d := devDependencies ++
        [.str "@babel/core", .str "@babel/eslint-parser",
         .str "@babel/plugin-proposal-export-namespace-from",
         .str "@babel/preset-env", .str "core-js@3", .str "eslint-plugin-json",
         .str "eslint-plugin-node", .str "eslint",
         .str ("eslint-config-" ++ props.eslintConfig)]
      let d := if props.bundler = "webpack" then d ++ [.str "babel-loader"] else d
      if props.babelPresets.length ≠ 0 then d ++ [.arr props.babelPresets] else d
    else if props.language = "typescript" then
      let d := devDependencies ++
        [.str "@babel/core", .str "@babel/eslint-parser",
         .str "@babel/plugin-proposal-export-namespace-from",
         .str "@babel/preset-env", .str "@types/atom", .str "@types/node",
         .str "@typescript-eslint/eslint-plugin", .str "@typescript-eslint/parser",
         .str "core-js@3", .str "eslint",
         .str ("eslint-config-" ++ props.eslintConfig), .str "eslint-plugin-json",
         .str "tslib", .str "typescript"]
      if props.bundler = "webpack" then d ++ [.str "ts-loader"] else d
    else devDependencies
  let devDependencies :=
    if "styles" ∈ props.features then
      devDependencies ++ [.str "stylelint", .str ("stylelint-config-" ++ props.stylelintConfig)]
    else devDependencies
  (jsSort dependencies, jsSort devDependencies)

/-- A prettier options object as returned by `getPrettierConfig`; a `none`
field models a key absent from the returned object. -/
structure PrettierConfig where
  arrowParens : Option String := none
  bracketSpacing : Option Bool := none
  quoteProps : Option String := none
  semi : Option Bool := none
  singleQuote : Option Bool := none
  tabWidth : Option Nat := none
  trailingComma : Option String := none
  useTabs : Option Bool := none
deriving DecidableEq, Repr

/-- `getPrettierConfig` (helpers.js:344-406).  A `switch` with no `default`
arm: an unmatched preset returns `undefined` (`none`). -/
def getPrettierConfig (eslintConfig : String) : Option PrettierConfig :=
  if eslintConfig = "airbnb" then
    some { arrowParens := some "always", bracketSpacing := some false,
           quoteProps := some "as-needed", semi := some true,
           singleQuote := some true, tabWidth := some 2,
           trailingComma := some "all", useTabs := some false }
  else if eslintConfig = "google" then
    some { arrowParens := some "always", bracketSpacing := some false,
           quoteProps := some "consistent", semi := some false,
           singleQuote := some true, tabWidth := some 2, useTabs := some false }
  else if eslintConfig = "idiomatic" then
    some { arrowParens := some "always", bracketSpacing := some true,
           singleQuote := some true, tabWidth := some 2, useTabs := some false }
  else if eslintConfig = "standard" then
    some { bracketSpacing := some false, semi := some false,
           singleQuote := some true, tabWidth := some 2, useTabs := some false }
  else if eslintConfig = "semi" then
    some { bracketSpacing := some false, semi := some true,
           singleQuote := some true, tabWidth := some 2, useTabs := some false }
  else if eslintConfig = "xo" then
    some { arrowParens := some "as-needed", bracketSpacing := some false,
           semi := some true, singleQuote := some false, tabWidth := some 2,
           useTabs := some true }
  else none

/-- `getLintStaged` (helpers.js:408-445), as an association list in
insertion order.  When `language` matches no `case`, `languageExt` stays
`undefined` and the template literal renders the key `*.undefined`.
All keys arising are pairwise distinct, so appending models object
insertion faithfully. -/
def getLintStaged (props : Props) : List (String × String) :=
  let tasks := [("*.json", "jsonlint --quiet"), ("*.\x7bts,md,yml\x7d", "prettierx --write")]
  let tasks :=
    if "code" ∈ props.features then
      let languageExt : Option String :=
        if props.language = "coffeescript" then some "coffee"
        else if props.language = "javascript" then some "js"
        else if props.language = "typescript" then some "ts"
        else none
      let keyExt := match languageExt with
        | some e => e
        | none => "undefined"
      tasks ++ [("*." ++ keyExt,
        if props.language = "coffeescript" then "coffeelint ./src" else "eslint --cache --fix")]
    else tasks
  if "styles" ∈ props.features then tasks ++ [("*.(c|le)ss", "stylelint --fix")]
  else tasks

/-- The `scripts` object of the manifest (helpers.js:262-284).
`lintCode`/`lintStyles` model the keys `lint:code`/`lint:styles`. -/
structure Scripts where
  analyze : String
  build : String
  dev : String
  lintCode : String
  lintStyles : String
  lint : String
  postinstall : String
  prepublishOnly : String
  start : String
  test : String
deriving DecidableEq, Repr

/-- The manifest object built by `composeManifest` (helpers.js:250-318).
Nested objects are flattened into named fields;
`activationCommandsAtomWorkspace` is the array under
`activationCommands['atom-workspace']`, whose single element may be
`undefined` (`none`); `main` is `false` (`none`) or a string (`some`);
`dependencies`/`devDependencies` are the always-empty objects. -/
structure Manifest where
  name : String
  version : String
  description : String
  license : String
  «private» : Bool
  main : Option String
  scripts : Scripts
  keywords : List String
  repositoryType : String
  repositoryUrl : String
  homepage : String
  bugsUrl : String
  enginesAtom : String
  activationCommandsAtomWorkspace : List (Option String)
  activationHooks : List (Option String)
  workspaceOpeners : List String
  packageDeps : List String
  dependencies : List (String × String)
  devDependencies : List (String × String)
  lintStaged : List (String × String)
deriving DecidableEq, Repr

/-- `composeManifest` (helpers.js:250-318).  The `fileExtension` binding
and the `build`/`start` script fields may throw; object-literal fields are
evaluated in source order, so `fileExtension` fails first, then `build`,
then `start`. -/
def composeManifest (props : Props) : Except String Manifest :=
  (if "code" ∈ props.features then getLanguageExtension props.language
   else Except.ok "").bind fun fileExtension =>
  (getBuildScript props).bind fun build =>
  (getWatchScript props).bind fun start =>
  Except.ok
    { name := props.name
      version := "0.0.0"
      description := props.description
      license := props.license
      «private» := props.«private»
      main := if "code" ∈ props.features then some "./lib/main" else none
      scripts :=
        { analyze :=
            if "code" ∈ props.features then "source-map-explorer lib/**/*.js"
            else "echo \"Nothing to analyze\""
          build := build
          dev := "npm run start"
          lintCode :=
            if "code" ∈ props.features then
              if props.language = "coffeescript" then "coffeelint ./src"
              else "eslint --ignore-path .gitignore --no-error-on-unmatched-pattern ./src/**/*." ++ fileExtension
            else "echo \"Nothing to lint\""
          lintStyles :=
            if "styles" ∈ props.features then "stylelint --allow-empty-input styles/*.\x7bcss,less\x7d"
            else "echo \"Nothing to lint\""
          lint := "npm-run-all --parallel lint:*"
          postinstall := "husky install"
          prepublishOnly := "npm run build"
          start := start
          test :=
            if "code" ∈ props.features then "echo \x27Error: no test specified\x27 && exit 1"
            else "echo \"Nothing to test\"" }
      keywords := []
      repositoryType := "git"
      repositoryUrl := "https://github.com/" ++ props.author ++ "/" ++ props.repositoryName
      homepage := "https://atom.io/packages/" ++ props.name
      bugsUrl := "https://github.com/" ++ props.author ++ "/" ++ props.repositoryName ++ "/issues"
      enginesAtom := ">=1.0.0 <2.0.0"
      activationCommandsAtomWorkspace :=
        [if "code" ∈ props.features ∧ props.activationCommands
         then some (props.name ++ ":hello-world") else none]
      activationHooks :=
        if "code" ∈ props.features then getActivationHooks props else []
      workspaceOpeners :=
        if "code" ∈ props.features then props.workspaceOpenerURIs else []
      packageDeps :=
        if "code" ∈ props.features then props.atomDependencies else []
      dependencies := []
      devDependencies := []
      lintStaged := getLintStaged props }

/-- Splits a character list at the LAST occurrence of `c`:
returns `some (pre, post)` with `l = pre ++ c :: post` and `c ∉ post`,
or `none` when `c` does not occur. -/
def breakLast (c : Char) : List Char → Option (List Char × List Char)
  | [] => none
  | x :: xs =>
    match breakLast c xs with
    | some (pre, post) => some (x :: pre, post)
    | none => if x = c then some ([], xs) else none

/-- Node `path.dirname`, modelled for POSIX paths without trailing
slashes (the only form `getDestinationPath` receives). -/
def dirname (p : String) : String :=
  match breakLast ('/') p.data with
  | none => "."
  | some (pre, _) => if pre = [] then "/" else String.mk pre

/-- Last path component: Node `path.basename` with one argument,
for paths without trailing slashes. -/
def basenameOf (p : String) : String :=
  match breakLast ('/') p.data with
  | none => p
  | some (_, post) => String.mk post

/-- Node `path.extname`, modelled for the same path forms (including
Node's special case that `..` has no extension). -/
def extname (p : String) : String :=
  if (basenameOf p).data = ['.', '.'] then ""
  else
    match breakLast ('.') (basenameOf p).data with
    | none => ""
    | some (pre, post) => if pre = [] then "" else String.mk ('.' :: post)

/-- Node `path.basename(path, ext)`: the basename with `ext` stripped when
it is a proper suffix of the basename. -/
def basenameStrip (p ext : String) : String :=
  if 0 < ext.length ∧ ext ≠ basenameOf p ∧ ext.data.isSuffixOf (basenameOf p).data then
    String.mk ((basenameOf p).data.take ((basenameOf p).data.length - ext.data.length))
  else basenameOf p

/-- `getDestinationPath` (helpers.js:52-70), with `dirName`, `extName` and
`baseName` (pure bindings in the source) written in place. -/
def getDestinationPath (filePath selectedLanguage : String) : Except String String :=
  if jsToLower selectedLanguage = "typescript" then
    Except.ok (dirname filePath ++ "/" ++ basenameStrip filePath (extname filePath) ++ ".ts")
  else if jsToLower selectedLanguage = "javascript" then
    Except.ok (dirname filePath ++ "/" ++ basenameStrip filePath (extname filePath) ++ ".js")
  else if jsToLower selectedLanguage = "coffeescript" then
    Except.ok (dirname filePath ++ "/" ++ basenameStrip filePath (extname filePath) ++ ".coffee")
  else Except.error "Unsupported language selected"

/-- Modelled from the spec: the serialization of a manifest array by the
template `generators/app/templates/shared/package.json.ejs` (that template
is not among the provided sources).  Per the spec, entries that would be
`undefined` are omitted from the serialized array, not emitted as null. -/
def emittedEntries (l : List (Option String)) : List String :=
  l.filterMap id

/-! ### Shared helper lemmas -/

theorem ok_bind {α β ε : Type} (a : α) (f : α → Except ε β) :
    (Except.ok a : Except ε α).bind f = f a := rfl

theorem error_bind {α β ε : Type} (e : ε) (f : α → Except ε β) :
    (Except.error e : Except ε α).bind f = (Except.error e : Except ε β) := rfl

theorem jsEndsWith_append (s t : String) : jsEndsWith (s ++ t) t = true := by
  simp [jsEndsWith]

/-- A default answer record used to build the concrete records of the
individual scenarios. -/
def defaultProps : Props :=
  { name := "demo", description := "a demo package", author := "octocat",
    «private» := false, license := "MIT", features := [], language := "",
    bundler := "", eslintConfig := "", stylelintConfig := "",
    activationCommands := false, activationHooks := [], rootScopeUsed := "",
    grammarUsed := "", workspaceOpenerURIs := [], atomDependencies := [],
    additionalDependencies := [], babelPresets := [], repositoryName := "demo" }

/-! ### C1 -/

/-- The record of the C1 failing input: the `grammar-used` hook is selected
and `grammarUsed` already carries the `:grammar-used` suffix. -/
def c1props : Props :=
  { defaultProps with
    features := ["code"], language := "javascript", bundler := "webpack",
    activationHooks := ["grammar-used"], grammarUsed := "source.js:grammar-used" }

/-- C1: evaluation of the code at the failing input.  With
`grammarUsed = "source.js:grammar-used"` (already suffixed) the emitted
activation-hook entry is `"source.js:grammar-used:grammar-used"`, not the
unchanged value the claim requires: `getActivationHooks` tests the
`:root-scope-used` suffix in its `grammar-used` arm (helpers.js:207). -/
theorem grammarHook_double_suffix :
    (composeManifest c1props).map (fun m => m.activationHooks)
      = Except.ok [some "source.js:grammar-used:grammar-used"] := rfl

/-! ### C2 -/

/-- The record of the C2 failing input: the `styles` feature makes the
styles rule push `stylelint`, which the baseline set already contains. -/
def c2props : Props :=
  { defaultProps with features := ["styles"], stylelintConfig := "standard" }

/-- C2: evaluation of the code at the failing input.  The dev dependency
list contains `stylelint` twice (adjacent after sorting): the baseline set
(helpers.js:81) and the styles rule (helpers.js:168) both push it and
`getDependencies` never deduplicates. -/
theorem devDependencies_duplicate_stylelint :
    getDependencies c2props =
      ([], [.str "husky", .str "jsonlint", .str "lint-staged", .str "npm-run-all",
            .str "prettierx", .str "source-map-explorer", .str "stylelint",
            .str "stylelint", .str "stylelint-config-standard"])
    ∧ ¬ (getDependencies c2props).2.Nodup := by
  exact ⟨rfl, by decide⟩

/-! ### C3 -/

/-- The answer record of the C3 scenario. -/
def c3props : Props :=
  { defaultProps with
    features := ["code", "styles"], language := "javascript",
    bundler := "webpack", eslintConfig := "standard", stylelintConfig := "standard" }

/-- C3 counterexample: in the scenario the lint-staged map has four
entries (the two fixed entries plus the code-extension and style-extension
entries), not three as the claim states. -/
theorem lintStaged_scenario_not_three_entries :
    (getLintStaged c3props).length = 4 ∧ (getLintStaged c3props).length ≠ 3 := by
  exact ⟨rfl, by decide⟩

/-- C3 (amended): in the scenario, `scripts.lint:code` is the eslint
invocation over `.js` files and `scripts.lint:styles` the stylelint
invocation, and the lint-staged map has exactly four entries: the fixed
JSON entry, the fixed `\x7bts,md,yml\x7d` formatter entry, the
code-extension entry and the style-extension entry. -/
theorem scenario_lint_scripts_and_lintStaged :
    (composeManifest c3props).map (fun m => (m.scripts.lintCode, m.scripts.lintStyles))
      = Except.ok
          ("eslint --ignore-path .gitignore --no-error-on-unmatched-pattern ./src/**/*.js",
           "stylelint --allow-empty-input styles/*.\x7bcss,less\x7d")
    ∧ getLintStaged c3props =
        [("*.json", "jsonlint --quiet"),
         ("*.\x7bts,md,yml\x7d", "prettierx --write"),
         ("*.js", "eslint --cache --fix"),
         ("*.(c|le)ss", "stylelint --fix")] := ⟨rfl, rfl⟩

/-! ### C6 -/

/-- C6: the formatter-config resolver returns exactly the enumerated
option set for `airbnb`, and `undefined` for any preset outside the six
enumerated keys. -/
theorem prettierConfig_airbnb_and_unknown (p : String) :
    getPrettierConfig "airbnb" =
      some { arrowParens := some "always", bracketSpacing := some false,
             quoteProps := some "as-needed", semi := some true,
             singleQuote := some true, tabWidth := some 2,
             trailingComma := some "all", useTabs := some false }
    ∧ (p ∉ ["airbnb", "google", "idiomatic", "standard", "semi", "xo"] →
        getPrettierConfig p = none) := by
  refine ⟨rfl, fun hp => ?_⟩
  simp only [List.mem_cons, List.not_mem_nil, or_false, not_or] at hp
  obtain ⟨h1, h2, h3, h4, h5, h6⟩ := hp
  simp [getPrettierConfig, h1, h2, h3, h4, h5, h6]

/-- Witness for C6 at the concrete preset `"prettier"`. -/
theorem prettierConfig_airbnb_and_unknown_witness :
    (("prettier" : String) ∉ ["airbnb", "google", "idiomatic", "standard", "semi", "xo"])
    ∧ getPrettierConfig "prettier" = none :=
  ⟨by decide, (prettierConfig_airbnb_and_unknown "prettier").2 (by decide)⟩

/-! ### C9 -/

/-- C9: for every answer record the runtime dependency list returned by
`getDependencies` is empty. -/
theorem runtime_dependencies_empty (props : Props) :
    (getDependencies props).1 = [] := rfl

/-! ### C10 -/

/-- C10: with the `code` feature and a language outside the three known
values, `getLintStaged` returns normally: the two fixed entries, then the
literal glob `*.undefined` mapped to `eslint --cache --fix` (plus the
style entry when `styles` is selected). -/
theorem lintStaged_unknown_language (props : Props)
    (hc : "code" ∈ props.features)
    (h1 : props.language ≠ "coffeescript")
    (h2 : props.language ≠ "javascript")
    (h3 : props.language ≠ "typescript") :
    getLintStaged props =
      [("*.json", "jsonlint --quiet"),
       ("*.\x7bts,md,yml\x7d", "prettierx --write"),
       ("*.undefined", "eslint --cache --fix")]
      ++ (if "styles" ∈ props.features then [("*.(c|le)ss", "stylelint --fix")] else []) := by
  by_cases hs : "styles" ∈ props.features <;>
    simp [getLintStaged, hc, h1, h2, h3, hs]

/-- The record of the C10 witness: `code` selected, language `rust`. -/
def c10props : Props :=
  { defaultProps with features := ["code"], language := "rust" }

/-- Witness for C10 at the concrete record with language `rust`. -/
theorem lintStaged_unknown_language_witness :
    ("code" ∈ c10props.features
      ∧ c10props.language ≠ "coffeescript"
      ∧ c10props.language ≠ "javascript"
      ∧ c10props.language ≠ "typescript")
    ∧ getLintStaged c10props =
        [("*.json", "jsonlint --quiet"),
         ("*.\x7bts,md,yml\x7d", "prettierx --write"),
         ("*.undefined", "eslint --cache --fix")]
        ++ (if "styles" ∈ c10props.features then [("*.(c|le)ss", "stylelint --fix")] else []) :=
  ⟨by decide,
   lintStaged_unknown_language c10props (by decide) (by decide) (by decide) (by decide)⟩

/-! ### C4 -/

/-- C4: when `code` is absent from the features, the composed manifest's
build, start (watch), lint:code and test scripts are all no-op messages,
and its activation-command entries (after the spec-modelled omission of
entries that would be `undefined`), activation hooks, workspace openers
and package-deps are all empty. -/
theorem composeManifest_no_code (props : Props) (h : "code" ∉ props.features) :
    ∃ m, composeManifest props = Except.ok m
      ∧ m.scripts.build = "echo \"Nothing to build\""
      ∧ m.scripts.start = "echo \"Nothing to watch\""
      ∧ m.scripts.lintCode = "echo \"Nothing to lint\""
      ∧ m.scripts.test = "echo \"Nothing to test\""
      ∧ emittedEntries m.activationCommandsAtomWorkspace = []
      ∧ m.activationHooks = []
      ∧ m.workspaceOpeners = []
      ∧ m.packageDeps = [] := by
  have hb : getBuildScript props = Except.ok "echo \"Nothing to build\"" := if_pos h
  have hw : getWatchScript props = Except.ok "echo \"Nothing to watch\"" := if_pos h
  unfold composeManifest
  rw [if_neg h, ok_bind, hb, ok_bind, hw, ok_bind]
  refine ⟨_, rfl, rfl, rfl, ?_, ?_, ?_, ?_, ?_, ?_⟩
  · simp [h]
  · simp [h]
  · simp [emittedEntries, h]
  · simp [h]
  · simp [h]
  · simp [h]

/-- The record of the C4 witness: no `code` feature, but activation
commands, openers and atom dependencies supplied. -/
def c4props : Props :=
  { defaultProps with
    features := ["keymaps"], activationCommands := true,
    workspaceOpenerURIs := ["atom://demo"], atomDependencies := ["dep-a"],
    activationHooks := ["root-scope-used"], rootScopeUsed := "foo" }

/-- Witness for C4 at a concrete record without the `code` feature. -/
theorem composeManifest_no_code_witness :
    ("code" ∉ c4props.features)
    ∧ (∃ m, composeManifest c4props = Except.ok m
        ∧ m.scripts.build = "echo \"Nothing to build\""
        ∧ m.scripts.start = "echo \"Nothing to watch\""
        ∧ m.scripts.lintCode = "echo \"Nothing to lint\""
        ∧ m.scripts.test = "echo \"Nothing to test\""
        ∧ emittedEntries m.activationCommandsAtomWorkspace = []
        ∧ m.activationHooks = []
        ∧ m.workspaceOpeners = []
        ∧ m.packageDeps = []) :=
  ⟨by decide, composeManifest_no_code c4props (by decide)⟩

/-! ### C5 -/

/-- C5: the build/watch script composers fail with the
unsupported-bundler error exactly when `code` is selected and the bundler
is neither rollup nor webpack; without `code` both return no-op messages
for any bundler; and `composeManifest` propagates a build-script failure
unchanged (given a language whose extension lookup succeeds, since the
manifest composer evaluates that lookup first). -/
theorem scripts_unsupported_bundler (props : Props) :
    (getBuildScript props = Except.error (bundlerError props.bundler)
      ↔ "code" ∈ props.features ∧ props.bundler ≠ "rollup" ∧ props.bundler ≠ "webpack")
    ∧ (getWatchScript props = Except.error (bundlerError props.bundler)
      ↔ "code" ∈ props.features ∧ props.bundler ≠ "rollup" ∧ props.bundler ≠ "webpack")
    ∧ ("code" ∉ props.features →
        getBuildScript props = Except.ok "echo \"Nothing to build\""
        ∧ getWatchScript props = Except.ok "echo \"Nothing to watch\"")
    ∧ (∀ e ext, getLanguageExtension props.language = Except.ok ext →
        getBuildScript props = Except.error e →
        composeManifest props = Except.error e) := by
  refine ⟨?_, ?_, fun h => ⟨if_pos h, if_pos h⟩, ?_⟩
  · by_cases hc : "code" ∈ props.features
    · by_cases hw : props.bundler = "webpack"
      · simp [getBuildScript, hc, hw]
      · by_cases hr : props.bundler = "rollup"
        · simp [getBuildScript, hc, hr]
        · simp [getBuildScript, hc, hw, hr]
    · simp [getBuildScript, hc]
  · by_cases hc : "code" ∈ props.features
    · by_cases hw : props.bundler = "webpack"
      · simp [getWatchScript, hc, hw]
      · by_cases hr : props.bundler = "rollup"
        · simp [getWatchScript, hc, hr]
        · simp [getWatchScript, hc, hw, hr]
    · simp [getWatchScript, hc]
  · intro e ext hlang hb
    have hc : "code" ∈ props.features := by
      by_contra hcn
      unfold getBuildScript at hb
      rw [if_pos hcn] at hb
      exact Except.noConfusion hb
    unfold composeManifest
    rw [if_pos hc, hlang, ok_bind, hb, error_bind]

/-- The record of the C5 witness: `code` selected with the invalid
bundler `grunt`. -/
def c5props : Props :=
  { defaultProps with
    features := ["code"], language := "javascript", bundler := "grunt" }

/-- Witness for C5: with bundler `grunt` the build script fails and
`composeManifest` surfaces the same error. -/
theorem scripts_unsupported_bundler_witness :
    getLanguageExtension c5props.language = Except.ok "js"
    ∧ getBuildScript c5props = Except.error (bundlerError "grunt")
    ∧ composeManifest c5props = Except.error (bundlerError "grunt") :=
  ⟨rfl, rfl,
   (scripts_unsupported_bundler c5props).2.2.2 (bundlerError "grunt") "js" rfl rfl⟩

/-! ### C8 -/

/-- C8: with the `root-scope-used` hook selected the emitted entry is the
normalized `rootScopeUsed`: the `:root-scope-used` suffix is appended when
absent, an already-suffixed value stays unchanged, and the normalization
is idempotent. -/
theorem rootScope_normalization (props : Props)
    (h : "root-scope-used" ∈ props.activationHooks) :
    some (normalizeRootScope props.rootScopeUsed) ∈ getActivationHooks props
    ∧ (jsEndsWith props.rootScopeUsed ":root-scope-used" = false →
        normalizeRootScope props.rootScopeUsed = props.rootScopeUsed ++ ":root-scope-used")
    ∧ (jsEndsWith props.rootScopeUsed ":root-scope-used" = true →
        normalizeRootScope props.rootScopeUsed = props.rootScopeUsed)
    ∧ normalizeRootScope (normalizeRootScope props.rootScopeUsed)
        = normalizeRootScope props.rootScopeUsed := by
  refine ⟨?_, fun hf => ?_, fun ht => ?_, ?_⟩
  · exact List.mem_map.mpr ⟨"root-scope-used", h, rfl⟩
  · simp [normalizeRootScope, hf]
  · simp [normalizeRootScope, ht]
  · cases hb : jsEndsWith props.rootScopeUsed ":root-scope-used" with
    | true => simp [normalizeRootScope, hb]
    | false => simp [normalizeRootScope, hb, jsEndsWith_append]

/-- The record of the C8 witness: hook selected, `rootScopeUsed = "foo"`. -/
def c8props : Props :=
  { defaultProps with
    activationHooks := ["root-scope-used"], rootScopeUsed := "foo" }

/-- Witness for C8 at `rootScopeUsed = "foo"`. -/
theorem rootScope_normalization_witness :
    ("root-scope-used" ∈ c8props.activationHooks)
    ∧ (some (normalizeRootScope c8props.rootScopeUsed) ∈ getActivationHooks c8props
      ∧ (jsEndsWith c8props.rootScopeUsed ":root-scope-used" = false →
          normalizeRootScope c8props.rootScopeUsed
            = c8props.rootScopeUsed ++ ":root-scope-used")
      ∧ (jsEndsWith c8props.rootScopeUsed ":root-scope-used" = true →
          normalizeRootScope c8props.rootScopeUsed = c8props.rootScopeUsed)
      ∧ normalizeRootScope (normalizeRootScope c8props.rootScopeUsed)
          = normalizeRootScope c8props.rootScopeUsed) :=
  ⟨by decide, rootScope_normalization c8props (by decide)⟩

/-! ### C7 -/

theorem data_mk (l : List Char) : (String.mk l).data = l := rfl

theorem mk_data (s : String) : String.mk s.data = s := rfl

theorem string_of_data_nil {s : String} (h : s.data = []) : s = "" := by
  cases s with
  | mk d => subst h; rfl

theorem breakLast_of_not_mem {c : Char} {l : List Char} (h : c ∉ l) :
    breakLast c l = none := by
  induction l with
  | nil => rfl
  | cons x xs ih =>
    simp only [List.mem_cons, not_or] at h
    unfold breakLast
    rw [ih h.2]
    simp [Ne.symm h.1]

theorem breakLast_append {c : Char} (l₁ : List Char) {l₂ : List Char} (h : c ∉ l₂) :
    breakLast c (l₁ ++ c :: l₂) = some (l₁, l₂) := by
  induction l₁ with
  | nil => simp [breakLast, breakLast_of_not_mem h]
  | cons x xs ih =>
    rw [List.cons_append]
    unfold breakLast
    rw [ih]

/-- On a path `dir/base.ext` whose `base` part is non-empty and free of
separators and dots and whose `ext` part is free of separators and dots,
the modelled Node helpers recover exactly `dir` and `base`. -/
theorem destinationPath_components (dir base ext : String)
    (hdir : dir ≠ "") (hbase : base ≠ "")
    (hbs : ('/') ∉ base.data) (hbd : ('.') ∉ base.data)
    (hes : ('/') ∉ ext.data) (hed : ('.') ∉ ext.data) :
    dirname (dir ++ "/" ++ base ++ "." ++ ext) = dir
    ∧ basenameStrip (dir ++ "/" ++ base ++ "." ++ ext)
        (extname (dir ++ "/" ++ base ++ "." ++ ext)) = base := by
  have hdd : dir.data ≠ [] := fun hh => hdir (string_of_data_nil hh)
  have hbb : base.data ≠ [] := fun hh => hbase (string_of_data_nil hh)
  have hsl : ("/" : String).data = ['/'] := rfl
  have hdot : ("." : String).data = ['.'] := rfl
  have hdata : (dir ++ "/" ++ base ++ "." ++ ext).data
      = dir.data ++ ('/') :: (base.data ++ ('.') :: ext.data) := by
    simp [String.data_append, hsl, hdot]
  have hnr : ('/') ∉ base.data ++ ('.') :: ext.data := by
    intro hmem
    rcases List.mem_append.mp hmem with h' | h'
    · exact hbs h'
    · rcases List.mem_cons.mp h' with h'' | h''
      · exact absurd h'' (by decide)
      · exact hes h''
  have hbreak : breakLast ('/') (dir ++ "/" ++ base ++ "." ++ ext).data
      = some (dir.data, base.data ++ ('.') :: ext.data) := by
    rw [hdata]
    exact breakLast_append _ hnr
  have hbase' : basenameOf (dir ++ "/" ++ base ++ "." ++ ext)
      = String.mk (base.data ++ ('.') :: ext.data) := by
    unfold basenameOf
    rw [hbreak]
  have hne2 : base.data ++ ('.') :: ext.data ≠ ['.', '.'] := by
    intro hh
    cases hbcons : base.data with
    | nil => exact hbb hbcons
    | cons c cs =>
      rw [hbcons, List.cons_append, List.cons.injEq] at hh
      exact hbd (hbcons ▸ (hh.1 ▸ List.mem_cons_self c cs))
  have hbreak2 : breakLast ('.') (base.data ++ ('.') :: ext.data)
      = some (base.data, ext.data) := breakLast_append _ hed
  have hext : extname (dir ++ "/" ++ base ++ "." ++ ext) = String.mk (('.') :: ext.data) := by
    unfold extname
    rw [hbase']
    simp [data_mk, hne2, hbreak2, hbb]
  have hneq : String.mk (('.') :: ext.data) ≠ String.mk (base.data ++ ('.') :: ext.data) := by
    intro hh
    have hdd' := congrArg String.data hh
    rw [data_mk, data_mk, List.self_eq_append_left] at hdd'
    exact hbb hdd'
  have hsuff : (('.') :: ext.data).isSuffixOf (base.data ++ ('.') :: ext.data) = true := by
    simp [List.isSuffixOf_iff_suffix]
  have htake : (base.data ++ ('.') :: ext.data).take
      ((base.data ++ ('.') :: ext.data).length - (('.') :: ext.data).length) = base.data := by
    rw [List.length_append, Nat.add_sub_cancel]
    exact List.take_left _ _
  constructor
  · unfold dirname
    rw [hbreak]
    simp [hdd, mk_data]
  · unfold basenameStrip
    rw [hext, hbase']
    rw [if_pos ⟨Nat.succ_pos _, hneq, hsuff⟩]
    rw [data_mk, data_mk, htake, mk_data]

/-- C7 counterexample: `"TypeScript"` is not one of the three known
language values, yet neither destination-path derivation nor extension
lookup raises: the source lowercases the language before dispatching. -/
theorem destinationPath_mixed_case_accepted :
    (("TypeScript" : String) ∉ (["typescript", "javascript", "coffeescript"] : List String))
    ∧ getDestinationPath "src/main.ejs" "TypeScript" = Except.ok "src/main.ts"
    ∧ getLanguageExtension "TypeScript" = Except.ok "ts" :=
  ⟨by decide, rfl, rfl⟩

/-- C7 (amended): destination-path derivation rewrites the file extension
to `.ts`/`.js`/`.coffee` according to the lowercased language, and both it
and extension lookup raise UnsupportedLanguage exactly for languages whose
lowercased form is none of the three known values. -/
theorem destinationPath_extension_rewrite (dir base ext lang : String)
    (hdir : dir ≠ "") (hbase : base ≠ "")
    (hbs : ('/') ∉ base.data) (hbd : ('.') ∉ base.data)
    (hes : ('/') ∉ ext.data) (hed : ('.') ∉ ext.data) :
    (jsToLower lang = "typescript" →
      getDestinationPath (dir ++ "/" ++ base ++ "." ++ ext) lang
        = Except.ok (dir ++ "/" ++ base ++ ".ts"))
    ∧ (jsToLower lang = "javascript" →
      getDestinationPath (dir ++ "/" ++ base ++ "." ++ ext) lang
        = Except.ok (dir ++ "/" ++ base ++ ".js"))
    ∧ (jsToLower lang = "coffeescript" →
      getDestinationPath (dir ++ "/" ++ base ++ "." ++ ext) lang
        = Except.ok (dir ++ "/" ++ base ++ ".coffee"))
    ∧ (jsToLower lang ≠ "typescript" → jsToLower lang ≠ "javascript" →
        jsToLower lang ≠ "coffeescript" →
        getDestinationPath (dir ++ "/" ++ base ++ "." ++ ext) lang
          = Except.error "Unsupported language selected"
        ∧ getLanguageExtension lang = Except.error "Unsupported language selected") := by
  obtain ⟨hd, hb⟩ := destinationPath_components dir base ext hdir hbase hbs hbd hes hed
  refine ⟨fun hl => ?_, fun hl => ?_, fun hl => ?_, fun h1 h2 h3 => ⟨?_, ?_⟩⟩
  · unfold getDestinationPath
    rw [hl, if_pos rfl, hd, hb]
  · unfold getDestinationPath
    rw [hl, if_neg (by decide), if_pos rfl, hd, hb]
  · unfold getDestinationPath
    rw [hl, if_neg (by decide), if_neg (by decide), if_pos rfl, hd, hb]
  · unfold getDestinationPath
    rw [if_neg h1, if_neg h2, if_neg h3]
  · unfold getLanguageExtension
    rw [if_neg h1, if_neg h2, if_neg h3]

/-- Witness for C7 at `src/main.ejs` with language `"TypeScript"`. -/
theorem destinationPath_extension_rewrite_witness :
    (("src" : String) ≠ "" ∧ ("main" : String) ≠ ""
      ∧ ('/') ∉ ("main" : String).data ∧ ('.') ∉ ("main" : String).data
      ∧ ('/') ∉ ("ejs" : String).data ∧ ('.') ∉ ("ejs" : String).data)
    ∧ ((jsToLower "TypeScript" = "typescript" →
        getDestinationPath ("src" ++ "/" ++ "main" ++ "." ++ "ejs") "TypeScript"
          = Except.ok ("src" ++ "/" ++ "main" ++ ".ts"))
      ∧ (jsToLower "TypeScript" = "javascript" →
        getDestinationPath ("src" ++ "/" ++ "main" ++ "." ++ "ejs") "TypeScript"
          = Except.ok ("src" ++ "/" ++ "main" ++ ".js"))
      ∧ (jsToLower "TypeScript" = "coffeescript" →
        getDestinationPath ("src" ++ "/" ++ "main" ++ "." ++ "ejs") "TypeScript"
          = Except.ok ("src" ++ "/" ++ "main" ++ ".coffee"))
      ∧ (jsToLower "TypeScript" ≠ "typescript" → jsToLower "TypeScript" ≠ "javascript" →
          jsToLower "TypeScript" ≠ "coffeescript" →
          getDestinationPath ("src" ++ "/" ++ "main" ++ "." ++ "ejs") "TypeScript"
            = Except.error "Unsupported language selected"
          ∧ getLanguageExtension "TypeScript" = Except.error "Unsupported language selected")) :=
  ⟨⟨by decide, by decide, by decide, by decide, by decide, by decide⟩,
   destinationPath_extension_rewrite "src" "main" "ejs" "TypeScript"
     (by decide) (by decide) (by decide) (by decide) (by decide) (by decide)⟩

end PackageGenerator
